import Mathlib

/-!
# Verification of the per-request context / credential / routing subsystem

Shallow embedding of the TypeScript sources of `sky-pii-mcp`:

* `src/lib/middleware/authenticateBearer.ts` — `extractBearerToken`,
  `extractApiKey`, `extractCredentials`;
* `src/server.ts` — `extractClusterId`, `validateVaultConfig`, the inline
  route checks of the `/mcp` POST handler, `requestContextStorage`
  (`AsyncLocalStorage`) with `getCurrentSkyflow` / `getCurrentVaultId`, and
  the error boundary of the `dehydrate_file` tool handler.

JavaScript strings are modelled as Lean `String` (operated on through their
`List Char` data where that makes the JS primitive explicit); `undefined`
as `Option.none`; JS truthiness of a `string | undefined` value as
"present and non-empty".
-/

namespace SkyPii

/-- JS truthiness of a `string | undefined` value: `undefined`, `null` and
`""` are falsy, every other string is truthy. -/
def truthyS (o : Option String) : Bool :=
  match o with
  | none => false
  | some s => !s.isEmpty

/-- The character class JavaScript's `String.prototype.trim` removes:
WhiteSpace (tab, VT, FF, space, NBSP, BOM, Unicode space separators) and
LineTerminator (LF, CR, LS, PS). -/
def isJsWhitespace (c : Char) : Bool :=
  c == ' ' || c == '\t' || c == '\n' || c == '\r' ||
  c == '\x0b' || c == '\x0c' || c == ' ' || c == '﻿' ||
  c == ' ' || (' ' ≤ c && c ≤ ' ') ||
  c == ' ' || c == ' ' || c == ' ' ||
  c == ' ' || c == '　'

/-- JS `s.trim()`: drop leading and trailing whitespace. -/
def jsTrimL (l : List Char) : List Char :=
  ((l.dropWhile isJsWhitespace).reverse.dropWhile isJsWhitespace).reverse

/-- JS `s.trim()` on `String`. -/
def jsTrim (s : String) : String :=
  ⟨jsTrimL s.data⟩

/-- `TokenExtractionResult` of `authenticateBearer.ts`. -/
structure TokenExtractionResult where
  isPresent : Bool
  token : Option String
  error : Option String
  deriving Repr, DecidableEq

/-- `extractBearerToken` of `authenticateBearer.ts` (lines 28–51):
reject when the header is absent, empty, or lacks the exact `"Bearer "`
prefix; otherwise take the remainder after the 7-character prefix verbatim,
rejecting it when empty or whitespace-only. -/
def extractBearerToken (authHeader : Option String) : TokenExtractionResult :=
  match authHeader with
  | none =>
    { isPresent := false, token := none,
      error := some "Missing or invalid Authorization header" }
  | some h =>
    if h.data.isEmpty || !(("Bearer ".data).isPrefixOf h.data) then
      { isPresent := false, token := none,
        error := some "Missing or invalid Authorization header" }
    else
      let token : String := ⟨h.data.drop 7⟩
      if token.data.isEmpty || (jsTrimL token.data).isEmpty then
        { isPresent := false, token := none,
          error := some "Bearer token is empty" }
      else
        { isPresent := true, token := some token, error := none }

/-- `extractApiKey` of `authenticateBearer.ts` (lines 66–89): reject a
falsy (`undefined` or `""`) parameter outright; otherwise trim it and
reject when the trimmed value is empty, else return the trimmed value. -/
def extractApiKey (apiKeyParam : Option String) : TokenExtractionResult :=
  match apiKeyParam with
  | none =>
    { isPresent := false, token := none,
      error := some "Missing or invalid apiKey query parameter" }
  | some s =>
    if s.data.isEmpty then
      { isPresent := false, token := none,
        error := some "Missing or invalid apiKey query parameter" }
    else
      let apiKey := jsTrim s
      if apiKey.data.isEmpty then
        { isPresent := false, token := none, error := some "API key is empty" }
      else
        { isPresent := true, token := some apiKey, error := none }

/-- The `{ token } | { apiKey }` union of `CredentialsExtractionResult`. -/
inductive Credentials where
  | token (t : String)
  | apiKey (k : String)
  deriving Repr, DecidableEq

/-- `CredentialsExtractionResult` of `authenticateBearer.ts`. -/
structure CredentialsExtractionResult where
  isPresent : Bool
  credentials : Option Credentials
  error : Option String
  deriving Repr, DecidableEq

/-- `extractCredentials` of `authenticateBearer.ts` (lines 110–137): try
the bearer token from the header first, fall back to the apiKey query
parameter, and fail with one combined message when both fail. -/
def extractCredentials (authHeader apiKeyParam : Option String) :
    CredentialsExtractionResult :=
  let bearerResult := extractBearerToken authHeader
  if bearerResult.isPresent && truthyS bearerResult.token then
    { isPresent := true,
      credentials := some (.token (bearerResult.token.getD "")),
      error := none }
  else
    let apiKeyResult := extractApiKey apiKeyParam
    if apiKeyResult.isPresent && truthyS apiKeyResult.token then
      { isPresent := true,
        credentials := some (.apiKey (apiKeyResult.token.getD "")),
        error := none }
    else
      { isPresent := false, credentials := none,
        error := some "Missing or invalid credentials. Provide either Authorization header with Bearer token or apiKey query parameter." }

/-! ## `extractClusterId` (`server.ts` lines 1103–1106)

The TS body is `vaultUrl.match(/https:\/\/([^.]+)\.vault/)?.[1] ?? null`:
an UNANCHORED regex search.  The regex matches at a position iff the
literal `https://` sits there, followed by a non-empty run of non-dot
characters, followed by the literal `.vault` (since `[^.]+` cannot cross a
dot, backtracking never helps: the run must be the maximal dot-free run).
`String.prototype.match` returns the leftmost such match. -/

/-- The characters of the literal `https://`. -/
def httpsLit : List Char := "https://".data

/-- The characters of the literal `.vault`. -/
def vaultLit : List Char := ".vault".data

/-- Attempt the regex `https:\/\/([^.]+)\.vault` at the start of `l`;
return the capture group on success. -/
def clusterAt (l : List Char) : Option (List Char) :=
  if httpsLit.isPrefixOf l then
    let rest := l.drop httpsLit.length
    let cluster := rest.takeWhile (fun c => c != '.')
    if cluster.isEmpty then none
    else if vaultLit.isPrefixOf (rest.drop cluster.length) then some cluster
    else none
  else none

/-- Leftmost regex search: try `clusterAt` at each position, left to
right. -/
def findCluster : List Char → Option (List Char)
  | [] => none
  | c :: cs =>
    match clusterAt (c :: cs) with
    | some r => some r
    | none => findCluster cs

/-- `extractClusterId` of `server.ts` (lines 1103–1106). -/
def extractClusterId (vaultUrl : String) : Option String :=
  (findCluster vaultUrl.data).map fun l => ⟨l⟩

/-! ## `validateVaultConfig` (`server.ts` lines 1122–1163) -/

/-- `VaultConfig` of `server.ts`. -/
structure VaultConfig where
  vaultId : String
  vaultUrl : String
  clusterId : String
  accountId : Option String
  workspaceId : Option String
  deriving Repr, DecidableEq

/-- `ValidationResult` of `server.ts`. -/
structure ValidationResult where
  isValid : Bool
  error : Option String
  config : Option VaultConfig
  deriving Repr, DecidableEq

/-- The parameter object of `validateVaultConfig`. -/
structure VaultParams where
  vaultId : Option String
  vaultUrl : Option String
  accountId : Option String
  workspaceId : Option String
  deriving Repr, DecidableEq

/-- Error message for a missing `vaultId`. -/
def vaultIdRequiredMsg : String :=
  "vaultId is required (provide as query parameter or VAULT_ID environment variable)"

/-- Error message for a missing `vaultUrl`. -/
def vaultUrlRequiredMsg : String :=
  "vaultUrl is required (provide as query parameter or VAULT_URL environment variable)"

/-- Error message for a `vaultUrl` whose cluster derivation fails. -/
def invalidVaultUrlMsg : String :=
  "Invalid vaultUrl format. Expected format: https://<clusterId>.vault.skyflowapis.com"

/-- `validateVaultConfig` of `server.ts` (lines 1122–1163): check
`vaultId` truthiness, then `vaultUrl` truthiness, then cluster derivation
(`if (!clusterId)` — falsy check on the `string | null` result), and build
the config on success. -/
def validateVaultConfig (params : VaultParams) : ValidationResult :=
  if !truthyS params.vaultId then
    { isValid := false, error := some vaultIdRequiredMsg, config := none }
  else if !truthyS params.vaultUrl then
    { isValid := false, error := some vaultUrlRequiredMsg, config := none }
  else
    let clusterId := extractClusterId (params.vaultUrl.getD "")
    if !truthyS clusterId then
      { isValid := false, error := some invalidVaultUrlMsg, config := none }
    else
      { isValid := true, error := none,
        config := some
          { vaultId := params.vaultId.getD ""
            vaultUrl := params.vaultUrl.getD ""
            clusterId := clusterId.getD ""
            accountId := params.accountId
            workspaceId := params.workspaceId } }

/-! ## The `/mcp` POST handler's inline route checks
(`server.ts` lines 1010–1067) -/

/-- A Skyflow vault configuration entry as built at `server.ts`
lines 1038–1046 (`new Skyflow({...})`). -/
structure SkyflowVaultConfig where
  vaultId : String
  clusterId : String
  token : String
  deriving Repr, DecidableEq

/-- The per-request Skyflow client, modelled by the data it is constructed
from. -/
structure Skyflow where
  vaultConfigs : List SkyflowVaultConfig
  deriving Repr, DecidableEq

/-- The query parameters the `/mcp` handler reads. -/
structure McpQuery where
  accountId : Option String
  vaultId : Option String
  vaultUrl : Option String
  workspaceId : Option String
  deriving Repr, DecidableEq

/-- The process environment fallbacks the `/mcp` handler reads. -/
structure McpEnv where
  accountIdEnv : Option String
  vaultIdEnv : Option String
  vaultUrlEnv : Option String
  workspaceIdEnv : Option String
  deriving Repr, DecidableEq

/-- JS `a || b` on `string | undefined` values: the first operand when it
is truthy, otherwise the second. -/
def jsOr (a b : Option String) : Option String :=
  if truthyS a then a else b

/-- Outcome of the `/mcp` handler up to entering the request-context
scope: either an early HTTP error response, or the per-request Skyflow
instance plus the `vaultId` bound into the context. -/
inductive McpRouteResult where
  | errorResp (status : Nat) (error : String)
  | ok (skyflow : Skyflow) (vaultId : String)
  deriving Repr, DecidableEq

/-- The inline checks of the `/mcp` POST handler (`server.ts` lines
1010–1046): resolve each parameter as query `||` environment, then check
`vaultId`, then `vaultUrl`, then `req.bearerToken`, then derive the
cluster id from `vaultUrl` (falsy `match` result → format error), and
finally build the per-request Skyflow instance. -/
def mcpRouteChecks (q : McpQuery) (env : McpEnv) (bearerToken : Option String) :
    McpRouteResult :=
  let vaultId := jsOr q.vaultId env.vaultIdEnv
  let vaultUrl := jsOr q.vaultUrl env.vaultUrlEnv
  if !truthyS vaultId then .errorResp 400 vaultIdRequiredMsg
  else if !truthyS vaultUrl then .errorResp 400 vaultUrlRequiredMsg
  else if !truthyS bearerToken then .errorResp 401 "Bearer token is required"
  else
    let clusterId := extractClusterId (vaultUrl.getD "")
    if !truthyS clusterId then
      .errorResp 400 invalidVaultUrlMsg
    else
      .ok
        { vaultConfigs :=
            [{ vaultId := vaultId.getD "", clusterId := clusterId.getD "",
               token := bearerToken.getD "" }] }
        (vaultId.getD "")

/-! ## The request-context scope
(`server.ts` lines 155–182: `requestContextStorage`, `getCurrentSkyflow`,
`getCurrentVaultId`) -/

/-- `RequestContext` of `server.ts`. -/
structure RequestContext where
  skyflow : Skyflow
  vaultId : String
  deriving Repr, DecidableEq

/-- `getCurrentSkyflow` (`server.ts` lines 165–171), as a function of the
store `requestContextStorage.getStore()` returns for the calling code:
`none` models being outside every `run`.  A `throw` is modelled as
`Except.error` of the thrown message. -/
def getCurrentSkyflow (store : Option RequestContext) : Except String Skyflow :=
  match store with
  | none => .error "No Skyflow instance available in current request context"
  | some context => .ok context.skyflow

/-- `getCurrentVaultId` (`server.ts` lines 176–182). -/
def getCurrentVaultId (store : Option RequestContext) : Except String String :=
  match store with
  | none => .error "No vaultId available in current request context"
  | some context => .ok context.vaultId

/-! ## The `dehydrate_file` handler's error boundary
(`server.ts` lines 601–625) -/

/-- The `error` payload optionally carried by a `SkyflowError`
(`error.error?.http_code`, `error.error?.details`). -/
structure SkyflowApiBody where
  http_code : Option Nat
  details : Option String
  deriving Repr, DecidableEq

/-- A value thrown inside the `dehydrate_file` handler body:
a `SkyflowError`, some other `Error`, or a non-`Error` value. -/
inductive ThrownError where
  | skyflowError (message : String) (body : Option SkyflowApiBody)
  | jsError (message : String)
  | nonError
  deriving Repr, DecidableEq

/-- The structured error object the catch block builds (`{error: true,
code?, message, details?}`); `code`/`details` are `none` for
non-`SkyflowError` values, where the catch builds only `{error, message}`. -/
structure ErrorOutput where
  error : Bool
  code : Option Nat
  message : String
  details : Option String
  deriving Repr, DecidableEq

/-- The successful `DeidentifyFileOutput` payload is opaque to the error
boundary; only the fact that it is returned unchanged matters. -/
structure DeidentifyFileOutput where
  payload : String
  deriving Repr, DecidableEq

/-- What the `dehydrate_file` handler returns to the dispatch layer:
either the success shape or a structured failure carrying `isError`. -/
inductive DehydrateFileResult where
  | success (output : DeidentifyFileOutput)
  | failure (errorOutput : ErrorOutput) (isError : Bool)
  deriving Repr, DecidableEq

/-- The `try`/`catch` boundary of the `dehydrate_file` handler
(`server.ts` lines 464–625), as a function of the body's outcome: a normal
return passes through; a thrown `SkyflowError` becomes `{error: true,
code: error.error?.http_code, message, details: error.error?.details}`
with `isError: true`; any other thrown value becomes `{error: true,
message}` with `isError: true`.  The function is total: no outcome
propagates an exception past the boundary. -/
def dehydrateFileBoundary
    (bodyOutcome : Except ThrownError DeidentifyFileOutput) :
    DehydrateFileResult :=
  match bodyOutcome with
  | .ok output => .success output
  | .error (.skyflowError msg body) =>
    .failure
      { error := true, code := body.bind (·.http_code), message := msg,
        details := body.bind (·.details) } true
  | .error (.jsError msg) =>
    .failure { error := true, code := none, message := msg, details := none } true
  | .error .nonError =>
    .failure
      { error := true, code := none, message := "Unknown error occurred",
        details := none } true

/-! ## A cooperative-scheduling model of `requestContextStorage.run`

Modelled from the spec: Node's `AsyncLocalStorage` (the implementation of
`requestContextStorage` at `server.ts` line 160) is runtime machinery, not
repository code.  Its contract — `run(context, body)` binds `context` to
the dynamic extent of `body`, every continuation created inside `body`
captures the store at its creation and has it restored when the scheduler
resumes it, and `getStore()` reads the restored store — is modelled here
as a small-step scheduler over a list of in-flight requests.

Each `AlsTask` is one request's body as `requestContextStorage.run` starts
it (`server.ts` lines 1060–1066): `bound` is the context passed to `run`,
`saved` is the store its pending continuation captured, `pending` counts
the remaining segments between suspension points, and `observed` logs the
store value each resumed segment sees via `getStore()`.  A scheduler step
picks ANY task with work left — interleaving is fully nondeterministic —
restores that task's captured store into the global `current`, runs one
segment (which observes `current`), and re-captures the store at the next
suspension point. -/

/-- One in-flight request inside the scheduler model. -/
structure AlsTask where
  bound : RequestContext
  saved : Option RequestContext
  pending : Nat
  observed : List (Option RequestContext)
  deriving Repr, DecidableEq

/-- The scheduler state: the in-flight tasks and the global current store
(the one mutable cell `getStore()` reads). -/
structure SchedState where
  tasks : List AlsTask
  current : Option RequestContext
  deriving Repr, DecidableEq

/-- `requestContextStorage.run(ctx, body)` with `n` segments: the task
starts with its continuation capturing the freshly bound store. -/
def startTask (ctx : RequestContext) (n : Nat) : AlsTask :=
  { bound := ctx, saved := some ctx, pending := n, observed := [] }

/-- Two concurrent requests, neither yet scheduled; outside both scopes
the store is empty. -/
def initState (c₁ c₂ : RequestContext) (n₁ n₂ : Nat) : SchedState :=
  { tasks := [startTask c₁ n₁, startTask c₂ n₂], current := none }

/-- One scheduler step: resume any task `i` with pending work, restore its
captured store into `current`, run one segment (logging the store the
segment observes), and suspend again (the continuation re-captures the
store, unchanged within the segment). -/
inductive AlsStep : SchedState → SchedState → Prop where
  | resume (s : SchedState) (i : Nat) (t : AlsTask)
      (hget : s.tasks.get? i = some t) (hpending : 0 < t.pending) :
      AlsStep s
        { tasks := s.tasks.set i
            { t with pending := t.pending - 1,
                     observed := t.observed ++ [t.saved] },
          current := t.saved }

/-- Reachability under any interleaving of scheduler steps. -/
inductive AlsReaches : SchedState → SchedState → Prop where
  | refl (s : SchedState) : AlsReaches s s
  | step {s s' s'' : SchedState} :
      AlsReaches s s' → AlsStep s' s'' → AlsReaches s s''

/-- The isolation invariant: every task's captured store is exactly its
own bound context, and every store value any of its segments ever
observed is its own bound context. -/
def AlsInv (s : SchedState) : Prop :=
  ∀ i t, s.tasks.get? i = some t →
    t.saved = some t.bound ∧ ∀ o ∈ t.observed, o = some t.bound

/-- The explicit successor state of one `AlsStep.resume` of task `i`
(with current task record `t`) in state `s`; used to spell out concrete
interleaved traces. -/
def resumeState (s : SchedState) (i : Nat) (t : AlsTask) : SchedState :=
  { tasks := s.tasks.set i
      { t with pending := t.pending - 1,
               observed := t.observed ++ [t.saved] },
    current := t.saved }

/-- Request A of the end-to-end scenario: bearer token, vault `v1` on
cluster `c1`. -/
def demoCtxA : RequestContext :=
  { skyflow := { vaultConfigs := [{ vaultId := "v1", clusterId := "c1", token := "tok1" }] },
    vaultId := "v1" }

/-- Request B of the end-to-end scenario: vault `v2` on cluster `c2`. -/
def demoCtxB : RequestContext :=
  { skyflow := { vaultConfigs := [{ vaultId := "v2", clusterId := "c2", token := "k2" }] },
    vaultId := "v2" }

/-- Both requests started, two segments each, none yet scheduled. -/
def demoInit : SchedState := initState demoCtxA demoCtxB 2 2

/-- A runs its first segment. -/
def demoS1 : SchedState := resumeState demoInit 0 (startTask demoCtxA 2)

/-- B preempts and runs its first segment. -/
def demoS2 : SchedState := resumeState demoS1 1 (startTask demoCtxB 2)

/-- A resumes after suspension and runs its second segment. -/
def demoS3 : SchedState :=
  resumeState demoS2 0
    { bound := demoCtxA, saved := some demoCtxA, pending := 1,
      observed := [some demoCtxA] }

/-- B resumes and runs its second segment. -/
def demoS4 : SchedState :=
  resumeState demoS3 1
    { bound := demoCtxB, saved := some demoCtxB, pending := 1,
      observed := [some demoCtxB] }

/-! # Proof layer

Sanity checks on concrete inputs, helper lemmas, and the claim
theorems. -/

example : extractBearerToken (some "Bearer abc123") =
    { isPresent := true, token := some "abc123", error := none } := by decide

example : extractBearerToken (some "Bearer  abc") =
    { isPresent := true, token := some " abc", error := none } := by decide

example : extractBearerToken (some "bearer x") =
    { isPresent := false, token := none,
      error := some "Missing or invalid Authorization header" } := by decide

example : extractBearerToken (some "Bearer    ") =
    { isPresent := false, token := none,
      error := some "Bearer token is empty" } := by decide

example : extractApiKey (some "  key  ") =
    { isPresent := true, token := some "key", error := none } := by decide

example : extractApiKey (some "   ") =
    { isPresent := false, token := none,
      error := some "API key is empty" } := by decide

example : extractApiKey (some "") =
    { isPresent := false, token := none,
      error := some "Missing or invalid apiKey query parameter" } := by decide

example : extractCredentials (some "Bearer t1") (some "k2") =
    { isPresent := true, credentials := some (.token "t1"), error := none } := by
  decide

example : extractClusterId "https://abc123.vault.skyflowapis.com" = some "abc123" := by decide

example : extractClusterId "https://abc123.vault.skyflowapis.com/x/y" = some "abc123" := by decide

example : extractClusterId "http://abc123.vault.skyflowapis.com" = none := by decide

example : extractClusterId "not-a-url" = none := by decide

example : extractClusterId "https://invalid.com" = none := by decide

example : extractClusterId "xhttps://c1.vault.x.com" = some "c1" := by decide

example :
    validateVaultConfig
      { vaultId := some "v1", vaultUrl := some "https://c1.vault.x.com",
        accountId := none, workspaceId := none } =
    { isValid := true, error := none,
      config := some
        { vaultId := "v1", vaultUrl := "https://c1.vault.x.com",
          clusterId := "c1", accountId := none, workspaceId := none } } := by
  decide

example :
    validateVaultConfig
      { vaultId := none, vaultUrl := some "https://c1.vault.x.com",
        accountId := none, workspaceId := none } =
    { isValid := false, error := some vaultIdRequiredMsg, config := none } := by
  decide

example :
    validateVaultConfig
      { vaultId := some "v1", vaultUrl := some "not-a-url",
        accountId := none, workspaceId := none } =
    { isValid := false, error := some invalidVaultUrlMsg, config := none } := by
  decide

lemma alsInv_init (c₁ c₂ : RequestContext) (n₁ n₂ : Nat) :
    AlsInv (initState c₁ c₂ n₁ n₂) := by
  intro i t hget
  match i, hget with
  | 0, hget =>
    cases hget
    exact ⟨rfl, by simp [startTask]⟩
  | 1, hget =>
    cases hget
    exact ⟨rfl, by simp [startTask]⟩

lemma alsInv_step {s s' : SchedState} (hinv : AlsInv s) (hstep : AlsStep s s') :
    AlsInv s' := by
  cases hstep with
  | resume i t hget hpending =>
    intro j u hj
    dsimp only at hj
    rcases eq_or_ne i j with rfl | hne
    · obtain ⟨hlt, -⟩ := List.get?_eq_some.mp hget
      rw [List.get?_set_eq_of_lt _ hlt] at hj
      cases hj
      obtain ⟨hsaved, hobs⟩ := hinv i t hget
      refine ⟨hsaved, ?_⟩
      intro o ho
      rcases List.mem_append.mp ho with h | h
      · exact hobs o h
      · simp only [List.mem_singleton] at h
        exact h ▸ hsaved
    · rw [List.get?_set_ne _ _ hne] at hj
      exact hinv j u hj

lemma alsInv_reaches {s s' : SchedState} (hinv : AlsInv s)
    (hreach : AlsReaches s s') : AlsInv s' := by
  induction hreach with
  | refl => exact hinv
  | step _ hstep ih => exact alsInv_step ih hstep

/-! ## Lemmas about the regex model of `extractClusterId` -/

lemma takeWhile_append_of_all {p : Char → Bool} {a : List Char} (b : List Char)
    (h : ∀ x ∈ a, p x = true) :
    (a ++ b).takeWhile p = a ++ b.takeWhile p := by
  induction a with
  | nil => simp
  | cons x xs ih =>
    have hx : p x = true := h x (List.mem_cons_self x xs)
    simp [List.takeWhile_cons_of_pos hx,
      ih (fun y hy => h y (List.mem_cons_of_mem x hy))]

lemma drop_length_takeWhile (p : Char → Bool) (l : List Char) :
    l.drop (l.takeWhile p).length = l.dropWhile p := by
  induction l with
  | nil => rfl
  | cons x xs ih =>
    by_cases hx : p x = true
    · simp [List.takeWhile_cons_of_pos hx, List.dropWhile_cons_of_pos hx, ih]
    · simp [List.takeWhile_cons_of_neg (by simpa using hx),
        List.dropWhile_cons_of_neg (by simpa using hx)]

/-- The regex matches at the start of `https://<c>.vault<r>` and captures
exactly `c`, for any dot-free non-empty `c` and any tail `r`. -/
lemma clusterAt_shape (c r : List Char) (hc : c ≠ [])
    (hdot : ∀ ch ∈ c, ch ≠ '.') :
    clusterAt (httpsLit ++ (c ++ (vaultLit ++ r))) = some c := by
  have hpre : httpsLit.isPrefixOf (httpsLit ++ (c ++ (vaultLit ++ r))) = true := by
    rw [ List.isPrefixOf_iff_prefix]
    exact List.prefix_append _ _
  have hdrop : (httpsLit ++ (c ++ (vaultLit ++ r))).drop httpsLit.length
      = c ++ (vaultLit ++ r) := List.drop_left _ _
  have htail : (vaultLit ++ r).takeWhile (fun ch => ch != '.') = [] := by
    have hv : vaultLit ++ r = '.' :: ("vault".data ++ r) := rfl
    rw [hv]
    exact List.takeWhile_cons_of_neg (by simp)
  have htake : (c ++ (vaultLit ++ r)).takeWhile (fun ch => ch != '.') = c := by
    rw [takeWhile_append_of_all _ (fun x hx => by simpa using hdot x hx), htail,
      List.append_nil]
  have hemp : c.isEmpty = false := by simpa [List.isEmpty_iff] using hc
  have hvp : vaultLit.isPrefixOf ((c ++ (vaultLit ++ r)).drop c.length) = true := by
    rw [List.drop_left, List.isPrefixOf_iff_prefix]
    exact List.prefix_append _ _
  simp [clusterAt, hpre, hdrop, htake, hemp, hvp]

/-- Inversion: a match at the start of `l` forces the
`https://<x>.vault…` shape, with `x` non-empty and dot-free. -/
lemma clusterAt_sound {l x : List Char} (h : clusterAt l = some x) :
    (∃ tail, l = httpsLit ++ (x ++ (vaultLit ++ tail))) ∧ x ≠ [] ∧
      ∀ ch ∈ x, ch ≠ '.' := by
  simp only [clusterAt] at h
  split at h
  case isFalse => exact absurd h (by simp)
  case isTrue hpre =>
    obtain ⟨t, ht⟩ := List.isPrefixOf_iff_prefix.mp hpre
    have hrest : l.drop httpsLit.length = t := by
      rw [← ht]; exact List.drop_left _ _
    rw [hrest] at h
    split at h
    case isTrue => exact absurd h (by simp)
    case isFalse hne =>
      split at h
      case isFalse => exact absurd h (by simp)
      case isTrue hvp =>
        have hx := Option.some.inj h
        subst hx
        have hdecomp := List.takeWhile_append_dropWhile (fun ch => ch != '.') t
        rw [drop_length_takeWhile] at hvp
        obtain ⟨tail, htail⟩ := List.isPrefixOf_iff_prefix.mp hvp
        refine ⟨⟨tail, ?_⟩, ?_, ?_⟩
        · rw [← ht, htail, hdecomp]
        · simpa [List.isEmpty_iff] using hne
        · intro ch hch
          simpa using List.mem_takeWhile_imp hch

/-- A match at the head position is the leftmost match. -/
lemma findCluster_of_head {l x : List Char} (h : clusterAt l = some x) :
    findCluster l = some x := by
  cases l with
  | nil =>
    rw [(by decide : clusterAt ([] : List Char) = none)] at h
    exact Option.noConfusion h
  | cons a as => simp [findCluster, h]

lemma findCluster_cons_none {a : Char} {as : List Char}
    (h : clusterAt (a :: as) = none) :
    findCluster (a :: as) = findCluster as := by
  simp [findCluster, h]

/-- Soundness of the leftmost search: any result decomposes the input
around a dot-free cluster between `https://` and `.vault`. -/
lemma findCluster_sound : ∀ {l x : List Char}, findCluster l = some x →
    (∃ pre tail, l = pre ++ (httpsLit ++ (x ++ (vaultLit ++ tail)))) ∧
      x ≠ [] ∧ ∀ ch ∈ x, ch ≠ '.' := by
  intro l
  induction l with
  | nil =>
    intro x h
    exact Option.noConfusion h
  | cons a as ih =>
    intro x h
    cases hca : clusterAt (a :: as) with
    | some y =>
      rw [findCluster_of_head hca] at h
      obtain rfl : y = x := Option.some.inj h
      obtain ⟨⟨tail, ht⟩, hne, hdot⟩ := clusterAt_sound hca
      exact ⟨⟨[], tail, by simpa using ht⟩, hne, hdot⟩
    | none =>
      rw [findCluster_cons_none hca] at h
      obtain ⟨⟨pre, tail, ht⟩, hne, hdot⟩ := ih h
      exact ⟨⟨a :: pre, tail, by simp [ht]⟩, hne, hdot⟩

/-- Completeness with leftmost-ness: if the pattern occurs right after a
prefix `pre` at no position of which the regex matches, the search finds
exactly that occurrence's cluster. -/
lemma findCluster_first : ∀ (pre : List Char) {c r : List Char}, c ≠ [] →
    (∀ ch ∈ c, ch ≠ '.') →
    (∀ j, j < pre.length →
      clusterAt ((pre ++ (httpsLit ++ (c ++ (vaultLit ++ r)))).drop j) = none) →
    findCluster (pre ++ (httpsLit ++ (c ++ (vaultLit ++ r)))) = some c := by
  intro pre
  induction pre with
  | nil =>
    intro c r hc hdot _
    exact findCluster_of_head (clusterAt_shape c r hc hdot)
  | cons a as ih =>
    intro c r hc hdot hnone
    have h0 := hnone 0 (by simp)
    rw [List.drop_zero, List.cons_append] at h0
    rw [List.cons_append, findCluster_cons_none h0]
    refine ih hc hdot (fun j hj => ?_)
    have := hnone (j + 1) (by simpa using Nat.succ_lt_succ hj)
    simpa using this

/-- Unpack a successful `extractClusterId` into the underlying list-level
search result. -/
lemma extractClusterId_some {u cid : String}
    (h : extractClusterId u = some cid) :
    findCluster u.data = some cid.data := by
  unfold extractClusterId at h
  cases hf : findCluster u.data with
  | none => rw [hf] at h; exact Option.noConfusion h
  | some l =>
    rw [hf] at h
    obtain rfl : (⟨l⟩ : String) = cid := Option.some.inj h
    rfl

/-! ## Claim theorems -/

/-- C6: `extractClusterId` captures the dot-free subdomain between
`https://` and `.vault` — anchored matches succeed with trailing path
segments ignored — and returns `null` exactly when no
`https://<nondot>+.vault` occurrence exists anywhere in the string; in
particular `http://abc123.vault.skyflowapis.com` (wrong scheme, no
embedded occurrence) and `not-a-url` give `null`.  (Amended from the
frozen claim: a string whose own scheme is `http` can still yield a
cluster id when the pattern occurs later inside it, see the
counterexample.) -/
theorem claim_C6 :
    (∀ c r : List Char, c ≠ [] → (∀ ch ∈ c, ch ≠ '.') →
      extractClusterId ⟨httpsLit ++ (c ++ (vaultLit ++ r))⟩ = some ⟨c⟩)
    ∧ (∀ s : String,
        (¬ ∃ pre c tail, s.data = pre ++ (httpsLit ++ (c ++ (vaultLit ++ tail)))
          ∧ c ≠ [] ∧ ∀ ch ∈ c, ch ≠ '.') →
        extractClusterId s = none)
    ∧ extractClusterId "https://abc123.vault.skyflowapis.com" = some "abc123"
    ∧ extractClusterId "https://abc123.vault.skyflowapis.com/x/y" = some "abc123"
    ∧ extractClusterId "http://abc123.vault.skyflowapis.com" = none
    ∧ extractClusterId "not-a-url" = none := by
  refine ⟨?_, ?_, by decide, by decide, by decide, by decide⟩
  · intro c r hc hdot
    have h := findCluster_of_head (clusterAt_shape c r hc hdot)
    simp [extractClusterId, h]
  · intro s hno
    cases hf : findCluster s.data with
    | none => simp [extractClusterId, hf]
    | some x =>
      exfalso
      obtain ⟨⟨pre, tail, ht⟩, hne, hdot⟩ := findCluster_sound hf
      exact hno ⟨pre, x, tail, ht, hne, hdot⟩

/-- C6 counterexample: the frozen claim says every string with scheme
`http` yields `null`, but the unanchored search still fires on an embedded
occurrence: `http://eg.https://c1.vault.io` has scheme `http` (it starts
with `http://`, not `https://`) yet yields `"c1"`. -/
theorem claim_C6_counterexample :
    ("http://".data.isPrefixOf "http://eg.https://c1.vault.io".data) = true
    ∧ ("https://".data.isPrefixOf "http://eg.https://c1.vault.io".data) = false
    ∧ extractClusterId "http://eg.https://c1.vault.io" = some "c1" := by
  decide

/-- C6 witness: the anchored-success clause applied at
`https://abc123.vault.skyflowapis.com/x/y`. -/
theorem claim_C6_witness :
    extractClusterId ⟨httpsLit ++ ("abc123".data ++ (vaultLit ++ ".skyflowapis.com/x/y".data))⟩
      = some ⟨"abc123".data⟩ :=
  claim_C6.1 "abc123".data ".skyflowapis.com/x/y".data (by decide) (by decide)

/-- C10: `extractClusterId` is an unanchored substring match: whenever the
input decomposes as `pre ++ https:// ++ c ++ .vault ++ r` with `c`
non-empty and dot-free and no regex match inside `pre` (the occurrence is
the first), the result is exactly `c` even when the string does not begin
with `https://`; every returned cluster id is dot-free; and
`xhttps://c1.vault.x.com` yields `"c1"`. -/
theorem claim_C10 :
    (∀ pre c r : List Char, c ≠ [] → (∀ ch ∈ c, ch ≠ '.') →
      (∀ j, j < pre.length →
        clusterAt ((pre ++ (httpsLit ++ (c ++ (vaultLit ++ r)))).drop j) = none) →
      extractClusterId ⟨pre ++ (httpsLit ++ (c ++ (vaultLit ++ r)))⟩ = some ⟨c⟩)
    ∧ (∀ s cid : String, extractClusterId s = some cid → ∀ ch ∈ cid.data, ch ≠ '.')
    ∧ extractClusterId "xhttps://c1.vault.x.com" = some "c1" := by
  refine ⟨?_, ?_, by decide⟩
  · intro pre c r hc hdot hnone
    have h := findCluster_first pre hc hdot hnone
    simp [extractClusterId, h]
  · intro s cid h
    exact (findCluster_sound (extractClusterId_some h)).2.2

/-- C10 witness: the first-occurrence clause applied at
`xhttps://c1.vault.x.com` (`pre = "x"`, which contains no match). -/
theorem claim_C10_witness :
    extractClusterId ⟨"x".data ++ (httpsLit ++ ("c1".data ++ (vaultLit ++ ".x.com".data)))⟩
      = some ⟨"c1".data⟩ :=
  claim_C10.1 "x".data "c1".data ".x.com".data (by decide) (by decide) (by decide)

/-- C2: whenever `validateVaultConfig` returns `isValid = true`, it also
returns a config, and that config's `clusterId` is re-derivable from its
`vaultUrl` via `extractClusterId`; no `VaultConfig` failing that
derivation is ever constructed. -/
theorem claim_C2 (p : VaultParams)
    (h : (validateVaultConfig p).isValid = true) :
    (validateVaultConfig p).config ≠ none ∧
    ∀ cfg, (validateVaultConfig p).config = some cfg →
      extractClusterId cfg.vaultUrl = some cfg.clusterId := by
  cases hid : truthyS p.vaultId with
  | false => exact absurd h (by simp [validateVaultConfig, hid])
  | true =>
    cases hurl : truthyS p.vaultUrl with
    | false => exact absurd h (by simp [validateVaultConfig, hid, hurl])
    | true =>
      cases hcid : extractClusterId (p.vaultUrl.getD "") with
      | none =>
        have h0 : truthyS none = false := rfl
        exact absurd h (by simp [validateVaultConfig, hid, hurl, hcid, h0])
      | some cid =>
        have hne : cid.data ≠ [] := by
          have := (findCluster_sound (extractClusterId_some hcid)).2.1
          intro hd
          exact this (by cases cid; simpa using hd)
        have hne' : cid ≠ "" := by
          intro he
          exact hne (by rw [he])
        have hT : truthyS (some cid) = true := by
          have hemp : cid.isEmpty = false := by
            cases hc : cid.isEmpty
            · rfl
            · exact absurd ((String.isEmpty_iff cid).mp hc) hne'
          simp [truthyS, hemp]
        constructor
        · simp [validateVaultConfig, hid, hurl, hcid, hT]
        · intro cfg hcfg
          simp only [validateVaultConfig, hid, hurl, hcid, hT] at hcfg
          simp only [Bool.not_true, Bool.false_eq_true, if_false,
            Option.some.injEq] at hcfg
          rw [← hcfg]
          simpa using hcid

/-- C2 witness: the invariant evaluated at
`{vaultId: "v1", vaultUrl: "https://c1.vault.x.com"}`. -/
theorem claim_C2_witness :
    extractClusterId "https://c1.vault.x.com" = some "c1" :=
  (claim_C2
      { vaultId := some "v1", vaultUrl := some "https://c1.vault.x.com",
        accountId := none, workspaceId := none } (by decide)).2
    { vaultId := "v1", vaultUrl := "https://c1.vault.x.com",
      clusterId := "c1", accountId := none, workspaceId := none } (by decide)

/-- C3: both route-resolution paths check fields in a fixed order.  In
`validateVaultConfig`: a falsy `vaultId` yields the vaultId-required error
regardless of `vaultUrl`; a truthy `vaultId` with falsy `vaultUrl` yields
the vaultUrl-required error; a truthy `vaultUrl` whose cluster derivation
fails yields the "Invalid vaultUrl format" error, which differs from the
vaultUrl-required error.  The `/mcp` handler's inline checks behave the
same on the query-`||`-environment resolved values (its cluster check runs
after the bearer-token check, which the `authenticateBearer` middleware
has already guaranteed truthy). -/
theorem claim_C3 :
    (∀ p : VaultParams, truthyS p.vaultId = false →
      validateVaultConfig p =
        { isValid := false, error := some vaultIdRequiredMsg, config := none })
    ∧ (∀ p : VaultParams, truthyS p.vaultId = true → truthyS p.vaultUrl = false →
        validateVaultConfig p =
          { isValid := false, error := some vaultUrlRequiredMsg, config := none })
    ∧ (∀ p : VaultParams, truthyS p.vaultId = true → truthyS p.vaultUrl = true →
        extractClusterId (p.vaultUrl.getD "") = none →
        validateVaultConfig p =
          { isValid := false, error := some invalidVaultUrlMsg, config := none })
    ∧ invalidVaultUrlMsg ≠ vaultUrlRequiredMsg
    ∧ (∀ (q : McpQuery) (env : McpEnv) (b : Option String),
        truthyS (jsOr q.vaultId env.vaultIdEnv) = false →
        mcpRouteChecks q env b = .errorResp 400 vaultIdRequiredMsg)
    ∧ (∀ (q : McpQuery) (env : McpEnv) (b : Option String),
        truthyS (jsOr q.vaultId env.vaultIdEnv) = true →
        truthyS (jsOr q.vaultUrl env.vaultUrlEnv) = false →
        mcpRouteChecks q env b = .errorResp 400 vaultUrlRequiredMsg)
    ∧ (∀ (q : McpQuery) (env : McpEnv) (b : Option String),
        truthyS (jsOr q.vaultId env.vaultIdEnv) = true →
        truthyS (jsOr q.vaultUrl env.vaultUrlEnv) = true →
        truthyS b = true →
        extractClusterId ((jsOr q.vaultUrl env.vaultUrlEnv).getD "") = none →
        mcpRouteChecks q env b = .errorResp 400 invalidVaultUrlMsg) := by
  have h0 : truthyS none = false := rfl
  refine ⟨?_, ?_, ?_, by decide, ?_, ?_, ?_⟩
  · intro p h1
    simp [validateVaultConfig, h1]
  · intro p h1 h2
    simp [validateVaultConfig, h1, h2]
  · intro p h1 h2 h3
    simp [validateVaultConfig, h1, h2, h3, h0]
  · intro q env b h1
    simp [mcpRouteChecks, h1]
  · intro q env b h1 h2
    simp [mcpRouteChecks, h1, h2]
  · intro q env b h1 h2 h3 h4
    simp [mcpRouteChecks, h1, h2, h3, h4, h0]

/-- C3 witness: each ordered check evaluated on a concrete input —
missing `vaultId` (with a valid `vaultUrl` present), missing `vaultUrl`,
and a present-but-malformed `vaultUrl`, on both resolution paths. -/
theorem claim_C3_witness :
    validateVaultConfig
      { vaultId := none, vaultUrl := some "https://c1.vault.x.com",
        accountId := none, workspaceId := none } =
      { isValid := false, error := some vaultIdRequiredMsg, config := none }
    ∧ validateVaultConfig
        { vaultId := some "v1", vaultUrl := none,
          accountId := none, workspaceId := none } =
      { isValid := false, error := some vaultUrlRequiredMsg, config := none }
    ∧ validateVaultConfig
        { vaultId := some "v1", vaultUrl := some "not-a-url",
          accountId := none, workspaceId := none } =
      { isValid := false, error := some invalidVaultUrlMsg, config := none }
    ∧ mcpRouteChecks
        { accountId := none, vaultId := some "v1", vaultUrl := some "not-a-url",
          workspaceId := none }
        { accountIdEnv := none, vaultIdEnv := none, vaultUrlEnv := none,
          workspaceIdEnv := none }
        (some "tok") = .errorResp 400 invalidVaultUrlMsg :=
  ⟨claim_C3.1 _ (by decide),
   claim_C3.2.1 _ (by decide) (by decide),
   claim_C3.2.2.1 _ (by decide) (by decide) (by decide),
   claim_C3.2.2.2.2.2.2 _ _ _ (by decide) (by decide) (by decide) (by decide)⟩

/-- A `String` whose character list is non-empty is non-empty. -/
lemma string_isEmpty_false_of_data {s : String} (h : s.data.isEmpty = false) :
    s.isEmpty = false := by
  cases hs : s.isEmpty
  · rfl
  · exfalso
    have hse : s = "" := (String.isEmpty_iff s).mp hs
    rw [hse] at h
    exact absurd h (by decide)

/-- In the bearer-token guard, the emptiness test is subsumed by the
whitespace-only test (an empty remainder also trims to empty). -/
lemma bearer_token_guard (l : List Char) :
    (l.isEmpty || (jsTrimL l).isEmpty) = (jsTrimL l).isEmpty := by
  cases hl : l.isEmpty
  · simp
  · have hnil : l = [] := List.isEmpty_iff.mp (by simp [hl])
    subst hnil
    simp [jsTrimL]

/-- The value of `extractBearerToken` on any header with the exact
`"Bearer "` prefix, as a function of the remainder. -/
lemma extractBearerToken_shape (rem : String) :
    extractBearerToken (some ⟨"Bearer ".data ++ rem.data⟩) =
      if (jsTrimL rem.data).isEmpty then
        { isPresent := false, token := none,
          error := some "Bearer token is empty" }
      else { isPresent := true, token := some rem, error := none } := by
  have hp : ("Bearer ".data).isPrefixOf ("Bearer ".data ++ rem.data) = true := by
    rw [ List.isPrefixOf_iff_prefix]
    exact List.prefix_append _ _
  have he : ("Bearer ".data ++ rem.data).isEmpty = false := rfl
  have hd : ("Bearer ".data ++ rem.data).drop 7 = rem.data :=
    List.drop_left' (by decide)
  simp only [extractBearerToken]
  rw [he, hp, hd, bearer_token_guard]
  simp

/-- `extractBearerToken` only reports `isPresent` with a truthy token. -/
lemma extractBearerToken_present (h : Option String) :
    (extractBearerToken h).isPresent = true →
    truthyS (extractBearerToken h).token = true := by
  unfold extractBearerToken
  cases h with
  | none => intro hp; simp at hp
  | some s =>
    dsimp only
    split
    · intro hp; simp at hp
    · split
      case isTrue => intro hp; simp at hp
      case isFalse hcond =>
        intro _
        have hd : ((⟨s.data.drop 7⟩ : String)).data.isEmpty = false := by
          rcases Bool.or_eq_false_iff.mp (Bool.eq_false_iff.mpr hcond) with ⟨h1, -⟩
          exact h1
        simp [truthyS, string_isEmpty_false_of_data hd]

/-- `extractApiKey` only reports `isPresent` with a truthy token. -/
lemma extractApiKey_present (q : Option String) :
    (extractApiKey q).isPresent = true →
    truthyS (extractApiKey q).token = true := by
  unfold extractApiKey
  cases q with
  | none => intro hp; simp at hp
  | some s =>
    dsimp only
    split
    · intro hp; simp at hp
    · split
      case isTrue => intro hp; simp at hp
      case isFalse hcond =>
        intro _
        have hd : (jsTrim s).data.isEmpty = false := Bool.eq_false_iff.mpr hcond
        simp [truthyS, string_isEmpty_false_of_data hd]

/-- C4: `extractBearerToken` requires the exact case-sensitive `"Bearer "`
prefix (absent input or any non-matching header → "Missing or invalid
Authorization header"); given the prefix it returns the remainder verbatim
with no trimming (`"Bearer  abc"` → `" abc"`), unless the remainder is
empty or whitespace-only, which yields "Bearer token is empty". -/
theorem claim_C4 :
    extractBearerToken none =
      { isPresent := false, token := none,
        error := some "Missing or invalid Authorization header" }
    ∧ (∀ h : String, ("Bearer ".data).isPrefixOf h.data = false →
        extractBearerToken (some h) =
          { isPresent := false, token := none,
            error := some "Missing or invalid Authorization header" })
    ∧ (∀ rem : String, (jsTrimL rem.data).isEmpty = true →
        extractBearerToken (some ⟨"Bearer ".data ++ rem.data⟩) =
          { isPresent := false, token := none,
            error := some "Bearer token is empty" })
    ∧ (∀ rem : String, (jsTrimL rem.data).isEmpty = false →
        extractBearerToken (some ⟨"Bearer ".data ++ rem.data⟩) =
          { isPresent := true, token := some rem, error := none })
    ∧ extractBearerToken (some "Bearer  abc") =
        { isPresent := true, token := some " abc", error := none } := by
  refine ⟨rfl, ?_, ?_, ?_, by decide⟩
  · intro h hp
    simp [extractBearerToken, hp]
  · intro rem ht
    rw [extractBearerToken_shape, if_pos ht]
  · intro rem ht
    rw [extractBearerToken_shape, if_neg (by simp [ht])]

/-- C4 witness: the prefix-mismatch clause at `"bearer x"` (wrong case)
and the verbatim-remainder clause at `"Bearer  abc"` (two spaces). -/
theorem claim_C4_witness :
    extractBearerToken (some "bearer x") =
      { isPresent := false, token := none,
        error := some "Missing or invalid Authorization header" }
    ∧ extractBearerToken (some ⟨"Bearer ".data ++ " abc".data⟩) =
      { isPresent := true, token := some " abc", error := none } :=
  ⟨claim_C4.2.1 "bearer x" (by decide),
   claim_C4.2.2.2.1 " abc" (by decide)⟩

/-- C8 counterexample: the frozen claim routes every present input that
trims to empty to "API key is empty", but the code's initial falsy check
catches the present empty string `""` first and reports "Missing or
invalid apiKey query parameter" instead. -/
theorem claim_C8_counterexample :
    (some "" : Option String) ≠ none
    ∧ jsTrim "" = ""
    ∧ extractApiKey (some "") =
        { isPresent := false, token := none,
          error := some "Missing or invalid apiKey query parameter" }
    ∧ ("Missing or invalid apiKey query parameter" : String) ≠ "API key is empty" := by
  decide

/-- C8 (amended): `extractApiKey` returns the trimmed value when it is
non-empty; an absent input — or the present-but-empty string `""`, which
the falsy check catches first — yields "Missing or invalid apiKey query
parameter"; a present non-empty input that trims to empty yields
"API key is empty". -/
theorem claim_C8 :
    (∀ s : String, (jsTrim s).data ≠ [] →
      extractApiKey (some s) =
        { isPresent := true, token := some (jsTrim s), error := none })
    ∧ extractApiKey none =
        { isPresent := false, token := none,
          error := some "Missing or invalid apiKey query parameter" }
    ∧ extractApiKey (some "") =
        { isPresent := false, token := none,
          error := some "Missing or invalid apiKey query parameter" }
    ∧ (∀ s : String, s.data ≠ [] → (jsTrim s).data = [] →
        extractApiKey (some s) =
          { isPresent := false, token := none,
            error := some "API key is empty" })
    ∧ extractApiKey (some "  key  ") =
        { isPresent := true, token := some "key", error := none } := by
  refine ⟨?_, rfl, by decide, ?_, by decide⟩
  · intro s h
    have hsne : s.data ≠ [] := by
      intro hd
      apply h
      simp [jsTrim, jsTrimL, hd]
    simp [extractApiKey, hsne, h]
  · intro s h1 h2
    simp [extractApiKey, h1, h2]

/-- C8 witness: the trim clause at `"  key  "` and the whitespace-only
clause at `"   "`. -/
theorem claim_C8_witness :
    extractApiKey (some "  key  ") =
      { isPresent := true, token := some "key", error := none }
    ∧ extractApiKey (some "   ") =
      { isPresent := false, token := none,
        error := some "API key is empty" } :=
  ⟨claim_C8.1 "  key  " (by decide),
   claim_C8.2.2.2.1 "   " (by decide) (by decide)⟩

/-- C5: `extractCredentials` prefers the bearer header — whenever bearer
extraction succeeds it returns the token variant regardless of the apiKey
parameter; otherwise a successful apiKey extraction gives the apiKey
variant; only when both fail does it return absent, with the single
combined diagnostic message. -/
theorem claim_C5 :
    (∀ hdr q : Option String, (extractBearerToken hdr).isPresent = true →
      extractCredentials hdr q =
        { isPresent := true,
          credentials := some (.token ((extractBearerToken hdr).token.getD "")),
          error := none })
    ∧ (∀ hdr q : Option String, (extractBearerToken hdr).isPresent = false →
        (extractApiKey q).isPresent = true →
        extractCredentials hdr q =
          { isPresent := true,
            credentials := some (.apiKey ((extractApiKey q).token.getD "")),
            error := none })
    ∧ (∀ hdr q : Option String, (extractBearerToken hdr).isPresent = false →
        (extractApiKey q).isPresent = false →
        extractCredentials hdr q =
          { isPresent := false, credentials := none,
            error := some "Missing or invalid credentials. Provide either Authorization header with Bearer token or apiKey query parameter." })
    ∧ extractCredentials (some "Bearer t1") (some "k2") =
        { isPresent := true, credentials := some (.token "t1"), error := none } := by
  refine ⟨?_, ?_, ?_, by decide⟩
  · intro hdr q hp
    have ht := extractBearerToken_present hdr hp
    simp [extractCredentials, hp, ht]
  · intro hdr q hb hp
    have ht := extractApiKey_present q hp
    simp [extractCredentials, hb, hp, ht]
  · intro hdr q hb hq
    simp [extractCredentials, hb, hq]

/-- C5 witness: header wins over a valid apiKey (`"Bearer t1"` with
`"k2"`), and the combined diagnostic when both are absent. -/
theorem claim_C5_witness :
    extractCredentials (some "Bearer t1") (some "k2") =
      { isPresent := true, credentials := some (.token "t1"), error := none }
    ∧ extractCredentials none none =
      { isPresent := false, credentials := none,
        error := some "Missing or invalid credentials. Provide either Authorization header with Bearer token or apiKey query parameter." } :=
  ⟨claim_C5.1 (some "Bearer t1") (some "k2") (by decide),
   claim_C5.2.2.1 none none (by decide) (by decide)⟩

/-- C7: with an empty store (outside every `requestContextStorage.run`
binding) both lookups throw — their distinct no-active-context messages —
and never return any default or stale value; inside a binding each returns
the bound context's field. -/
theorem claim_C7 :
    getCurrentSkyflow none =
      .error "No Skyflow instance available in current request context"
    ∧ getCurrentVaultId none =
      .error "No vaultId available in current request context"
    ∧ (∀ sky : Skyflow, getCurrentSkyflow none ≠ .ok sky)
    ∧ (∀ v : String, getCurrentVaultId none ≠ .ok v)
    ∧ ("No Skyflow instance available in current request context" : String) ≠
        "No vaultId available in current request context"
    ∧ (∀ ctx : RequestContext,
        getCurrentSkyflow (some ctx) = .ok ctx.skyflow ∧
        getCurrentVaultId (some ctx) = .ok ctx.vaultId) := by
  refine ⟨rfl, rfl, ?_, ?_, by decide, fun ctx => ⟨rfl, rfl⟩⟩
  · intro sky h
    exact Except.noConfusion h
  · intro v h
    exact Except.noConfusion h

/-- C9: the `dehydrate_file` handler's catch boundary is total — every
thrown value becomes a structured failure carrying `isError` instead of
propagating: a `SkyflowError` maps to `{error, code: http_code, message,
details}` with the upstream fields passed through, any other thrown value
maps to `{error, message}`, and a normal return passes through. -/
theorem claim_C9 :
    (∀ out : DeidentifyFileOutput,
      dehydrateFileBoundary (.ok out) = .success out)
    ∧ (∀ (msg : String) (body : Option SkyflowApiBody),
        dehydrateFileBoundary (.error (.skyflowError msg body)) =
          .failure
            { error := true, code := body.bind (·.http_code), message := msg,
              details := body.bind (·.details) } true)
    ∧ (∀ msg : String,
        dehydrateFileBoundary (.error (.jsError msg)) =
          .failure
            { error := true, code := none, message := msg, details := none } true)
    ∧ dehydrateFileBoundary (.error .nonError) =
        .failure
          { error := true, code := none, message := "Unknown error occurred",
            details := none } true
    ∧ (∀ e : ThrownError, ∃ eo,
        dehydrateFileBoundary (.error e) = .failure eo true ∧ eo.error = true) := by
  refine ⟨fun _ => rfl, fun _ _ => rfl, fun _ => rfl, rfl, ?_⟩
  intro e
  cases e <;> exact ⟨_, rfl, rfl⟩

/-- The bound context of every task is preserved by a scheduler step. -/
lemma alsBound_step {s s' : SchedState} (hstep : AlsStep s s') (i : Nat) :
    (s'.tasks.get? i).map AlsTask.bound = (s.tasks.get? i).map AlsTask.bound := by
  cases hstep with
  | resume j t hget hpending =>
    dsimp only
    rcases eq_or_ne j i with rfl | hne
    · obtain ⟨hlt, -⟩ := List.get?_eq_some.mp hget
      rw [List.get?_set_eq_of_lt _ hlt, hget]
      rfl
    · rw [List.get?_set_ne _ _ hne]

/-- The bound context of every task is preserved along any trace. -/
lemma alsBound_reaches {s s' : SchedState} (hreach : AlsReaches s s') (i : Nat) :
    (s'.tasks.get? i).map AlsTask.bound = (s.tasks.get? i).map AlsTask.bound := by
  induction hreach with
  | refl => rfl
  | step _ hstep ih => rw [alsBound_step hstep i, ih]

/-- C1: in the cooperative-scheduler model of `AsyncLocalStorage`, for any
two concurrently running `requestContextStorage.run` scopes and every
interleaving of their suspensions, every store value any segment of a
request observed is exactly that request's bound context; the two tasks
keep their own bindings, and when the contexts differ, request A never
observes request B's context. -/
theorem claim_C1 (c₁ c₂ : RequestContext) (n₁ n₂ : Nat) (s : SchedState)
    (hreach : AlsReaches (initState c₁ c₂ n₁ n₂) s) :
    (∀ i t, s.tasks.get? i = some t → ∀ o ∈ t.observed, o = some t.bound)
    ∧ (s.tasks.get? 0).map AlsTask.bound = some c₁
    ∧ (s.tasks.get? 1).map AlsTask.bound = some c₂
    ∧ (c₁ ≠ c₂ → ∀ t₀, s.tasks.get? 0 = some t₀ →
        ∀ o ∈ t₀.observed, o ≠ some c₂) := by
  have hinv := alsInv_reaches (alsInv_init c₁ c₂ n₁ n₂) hreach
  have hb0 : (s.tasks.get? 0).map AlsTask.bound = some c₁ := by
    rw [alsBound_reaches hreach 0]; rfl
  have hb1 : (s.tasks.get? 1).map AlsTask.bound = some c₂ := by
    rw [alsBound_reaches hreach 1]; rfl
  refine ⟨fun i t hget o ho => (hinv i t hget).2 o ho, hb0, hb1, ?_⟩
  intro hne t₀ hget o ho
  have hob := (hinv 0 t₀ hget).2 o ho
  have hbound : t₀.bound = c₁ := by
    rw [hget] at hb0
    exact Option.some.inj hb0
  rw [hob, hbound]
  intro hcc
  exact hne (Option.some.inj hcc)

/-- Two interleaved scheduler steps of each request really exist, and the
isolation theorem applied to the resulting state keeps both bindings
intact. -/
lemma demoReaches : AlsReaches demoInit demoS4 := by
  have h1 : AlsStep demoInit demoS1 :=
    AlsStep.resume demoInit 0 (startTask demoCtxA 2) rfl (by decide)
  have h2 : AlsStep demoS1 demoS2 :=
    AlsStep.resume demoS1 1 (startTask demoCtxB 2) rfl (by decide)
  have h3 : AlsStep demoS2 demoS3 :=
    AlsStep.resume demoS2 0
      { bound := demoCtxA, saved := some demoCtxA, pending := 1,
        observed := [some demoCtxA] } rfl (by decide)
  have h4 : AlsStep demoS3 demoS4 :=
    AlsStep.resume demoS3 1
      { bound := demoCtxB, saved := some demoCtxB, pending := 1,
        observed := [some demoCtxB] } rfl (by decide)
  exact .step (.step (.step (.step (.refl _) h1) h2) h3) h4

/-- C1 witness: the isolation theorem applied to the concrete four-step
interleaved trace A, B, A, B. -/
theorem claim_C1_witness :
    (demoS4.tasks.get? 0).map AlsTask.bound = some demoCtxA
    ∧ (demoS4.tasks.get? 1).map AlsTask.bound = some demoCtxB :=
  ⟨(claim_C1 demoCtxA demoCtxB 2 2 demoS4 demoReaches).2.1,
   (claim_C1 demoCtxA demoCtxB 2 2 demoS4 demoReaches).2.2.1⟩

end SkyPii
